import Mathlib

/-!
Verification of the breath-cycle engine of `bigmistqke/in-out`.

The repository contains two near-identical Solid.js app variants:
`src/src/App.tsx` (session target 1) and a second `App` embedded in
`src/vite.config.ts` (session target 10).  Both own the same engine state:
a duration store `config : { in, out }`, a progress signal `value`, a session
`mode` signal (`initial | playing | paused | completed`), a breath counter,
a `phase` signal (`in | out`), and the frame-loop closure variable `previous`
(the previous animation-frame timestamp, `number | undefined`).

Modelling choices (a shallow embedding over ℚ):
* JavaScript numbers are modelled as rationals; all concrete arithmetic the
  claims exercise is exact in both semantics.
* Solid.js signals are modelled as plain record fields with immediate
  read-after-write semantics inside one event.
* The two `createEffect`s (the frame-loop controller that clears `previous`
  and cancels the animation frame whenever `mode` is not `playing`, and the
  lazily created audio api `createMemo(on(() => mode() !== 'initial', ...))`)
  are modelled as flushing at the end of each event (`flushEffects`), which is
  the semantics of the `vite.config.ts` variant where the whole tick body is
  one `batch`.
* `requestAnimationFrame`/`cancelAnimationFrame` are modelled by delivering
  `tick` inputs only while `mode = playing`; a tick input in any other mode is
  ignored (the loop is stopped).
* Audio output and phase changes are recorded as an explicit event list.
* The write-only `stamp` variable of `src/src/App.tsx` is dead code and is
  omitted.
* The session target `BREATHES_PER_SESSION` is a parameter `N` of the model
  (1 in `src/src/App.tsx`, 10 in the `vite.config.ts` variant).
-/

namespace InOut

/-- Phase of the breath cycle, the source union type `'in' | 'out'`
(src/src/App.tsx line 143). -/
inductive Phase where
  | In : Phase
  | Out : Phase
deriving DecidableEq, Repr

/-- Session mode, the source union type
`'initial' | 'playing' | 'paused' | 'completed'` (src/src/App.tsx line 141). -/
inductive Mode where
  | initial : Mode
  | playing : Mode
  | paused : Mode
  | completed : Mode
deriving DecidableEq, Repr

/-- The duration store `config` of the app: `{ in: number, out: number }`,
durations in seconds (src/src/App.tsx lines 132-138). -/
structure Config where
  «in» : ℚ
  «out» : ℚ
deriving DecidableEq, Repr

/-- Reading `config[phase()]` (src/src/App.tsx line 184). -/
def Config.get (c : Config) : Phase → ℚ
  | Phase.In => c.«in»
  | Phase.Out => c.«out»

/-- Session target of `src/src/App.tsx` line 21 (the `vite.config.ts` variant
uses 10); the model takes the target as an explicit parameter `N`. -/
def BREATHES_PER_SESSION : Nat := 1

/-- Observable side effects of one tick: the phase-transition (the `phase`
signal change) and the audio cue `audioApi()?.play(frequency)`. -/
inductive Event where
  | flip : Phase → Event
  | tone : ℚ → Event
deriving DecidableEq, Repr

/-- Discriminator for phase-transition events. -/
def Event.isFlip : Event → Bool
  | Event.flip _ => true
  | Event.tone _ => false

/-- Discriminator for audio-cue events. -/
def Event.isTone : Event → Bool
  | Event.tone _ => true
  | Event.flip _ => false

/-- Full engine state: the signals of the `App` component together with the
frame-loop closure variable `previous` and the lazily initialized audio api
(`audioReady` records whether the `createMemo(on(() => mode() !== 'initial',
createAudioApi, { defer: true }))` has produced the api, i.e. whether `mode`
has ever left `initial`). -/
structure AppState where
  config : Config
  value : ℚ
  mode : Mode
  breatheCount : Nat
  phase : Phase
  previous : Option ℚ
  audioReady : Bool
deriving DecidableEq, Repr

/-- Initial signal values (src/src/App.tsx lines 132-143). -/
def initialState : AppState :=
  { config := { «in» := 3.5, «out» := 12 }
    value := 0
    mode := Mode.initial
    breatheCount := 0
    phase := Phase.In
    previous := none
    audioReady := false }

/-- Integration direction, `() => (isPhaseSelected('in') ? 1 : -1)`
(src/src/App.tsx line 147). -/
def direction : Phase → ℚ
  | Phase.In => 1
  | Phase.Out => -1

/-- Audio-cue frequency chosen in `setPhase`
(`isPhaseSelected('in') ? 130.81 : 207.65` read after `_setPhase(newPhase)`,
src/src/App.tsx lines 152-158): C2 for entering `in`, G#3 for entering
`out`. -/
def toneFor : Phase → ℚ
  | Phase.In => 130.81
  | Phase.Out => 207.65

/-- The `setPhase` wrapper (src/src/App.tsx lines 149-167): set the `phase`
signal, play the cue for the new phase (a no-op while the audio api is not yet
created), and on a flip to `in` increment `breatheCount`, completing the
session (mode `completed`, counter reset) when the target `N` is reached.
Returns the new state together with the emitted events. -/
def setPhase (N : Nat) (s : AppState) (newPhase : Phase) : AppState × List Event :=
  let s1 : AppState := { s with phase := newPhase }
  let evs : List Event :=
    Event.flip newPhase ::
      (if s1.audioReady then [Event.tone (toneFor newPhase)] else [])
  match newPhase with
  | Phase.In =>
      if s1.breatheCount + 1 = N then
        ({ s1 with breatheCount := 0, mode := Mode.completed }, evs)
      else
        ({ s1 with breatheCount := s1.breatheCount + 1 }, evs)
  | Phase.Out => (s1, evs)

/-- Progress value after integrating one frame of length `time - p`:
`value + (delta * direction()) / (duration * 1_000)`
(src/src/App.tsx line 186). -/
def integrateValue (s : AppState) (p time : ℚ) : ℚ :=
  s.value + (time - p) * direction s.phase / (Config.get s.config s.phase * 1000)

/-- The `animate` frame callback of `src/src/App.tsx` lines 175-200.
`if (previous) { ... }` guards on JavaScript truthiness, so an unset previous
timestamp and a previous timestamp of exactly `0` both skip the frame; the
frame always ends with `previous = time`.  On an integrating frame the
boundary check flips the phase via `setPhase` when `direction() > 0 ∧
value() ≥ 1` or `direction() < 0 ∧ value() ≤ 0`.  There is no clamping of
`value` and no guard on non-positive durations. -/
def animate (N : Nat) (s : AppState) (time : ℚ) : AppState × List Event :=
  match s.previous with
  | none => ({ s with previous := some time }, [])
  | some p =>
      if p = 0 then ({ s with previous := some time }, [])
      else
        let v : ℚ := integrateValue s p time
        let s1 : AppState := { s with value := v }
        if 0 < direction s.phase then
          if 1 ≤ v then
            ({ (setPhase N s1 Phase.Out).1 with previous := some time },
              (setPhase N s1 Phase.Out).2)
          else ({ s1 with previous := some time }, [])
        else
          if v ≤ 0 then
            ({ (setPhase N s1 Phase.In).1 with previous := some time },
              (setPhase N s1 Phase.In).2)
          else ({ s1 with previous := some time }, [])

/-- The guarded duration increment `handleInput` of `TimeControl`
(src/src/App.tsx lines 61-71): a negative delta is applied only when
`value + delta > 0`, a non-negative delta only when `value + delta < 100`;
otherwise the call is a silent no-op. -/
def handleInput (value δ : ℚ) : ℚ :=
  if δ < 0 then
    if 0 < value + δ then value + δ else value
  else
    if value + δ < 100 then value + δ else value

/-- Wiring of the two `TimeControl`s to the store:
`onInput={delta => setConfig('in', v => v + delta)}` and the analogue for
`out` (src/src/App.tsx lines 244 and 255), guarded by `handleInput`. -/
def setConfigDelta (c : Config) (ph : Phase) (δ : ℚ) : Config :=
  match ph with
  | Phase.In => { c with «in» := handleInput c.«in» δ }
  | Phase.Out => { c with «out» := handleInput c.«out» δ }

/-- The play/pause button handler
`setMode(mode => (mode === 'playing' ? 'paused' : 'playing'))`
(src/src/App.tsx line 220). -/
def clickPlayPause : Mode → Mode
  | Mode.playing => Mode.paused
  | _ => Mode.playing

/-- End-of-event flush of the two reactive effects: the audio api memo makes
the audio ready once `mode` has left `initial`, and the frame-loop effect
(src/src/App.tsx lines 202-209) clears `previous` whenever `mode` is not
`playing` (stopping the loop). -/
def flushEffects (s : AppState) : AppState :=
  let s1 : AppState :=
    { s with audioReady := s.audioReady || decide (s.mode ≠ Mode.initial) }
  if s1.mode = Mode.playing then s1 else { s1 with previous := none }

/-- External inputs of the engine: a click on the play/pause button, a guarded
duration edit on one of the two `TimeControl`s, and an animation-frame
callback at a given timestamp (in milliseconds). -/
inductive Input where
  | clickPlayPause : Input
  | increment : Phase → ℚ → Input
  | tick : ℚ → Input
deriving DecidableEq, Repr

/-- One event of the system.  Animation-frame callbacks are delivered only
while `mode = playing` (otherwise the loop has been cancelled and the tick is
ignored); every processed event ends with the reactive effect flush. -/
def applyInput (N : Nat) (s : AppState) : Input → AppState × List Event
  | Input.clickPlayPause =>
      (flushEffects { s with mode := clickPlayPause s.mode }, [])
  | Input.increment ph δ =>
      (flushEffects { s with config := setConfigDelta s.config ph δ }, [])
  | Input.tick t =>
      if s.mode = Mode.playing then
        (flushEffects (animate N s t).1, (animate N s t).2)
      else (s, [])

/-- State after one event. -/
def stepState (N : Nat) (s : AppState) (i : Input) : AppState :=
  (applyInput N s i).1

/-- State after a list of events. -/
def runState (N : Nat) : AppState → List Input → AppState
  | s, [] => s
  | s, i :: is => runState N (stepState N s i) is

/-- Events emitted along a list of events. -/
def runEvents (N : Nat) : AppState → List Input → List Event
  | _, [] => []
  | s, i :: is => (applyInput N s i).2 ++ runEvents N (stepState N s i) is

/-- States reachable from the initial state by some input sequence. -/
def Reachable (N : Nat) (s : AppState) : Prop :=
  ∃ l : List Input, runState N initialState l = s

/-- Number of entries into phase `in` (flips `out → in`) recorded in an event
trace. -/
def inFlips (evs : List Event) : Nat :=
  List.count (Event.flip Phase.In) evs

/-- Guard of one input of a single-session run: the input is not a click on
the play/pause button delivered while the mode is `completed`. -/
def clickOk (s : AppState) : Input → Bool
  | Input.clickPlayPause => decide (s.mode ≠ Mode.completed)
  | _ => true

/-- Input sequences that never click the play/pause button while the mode is
`completed` (i.e. runs that stay within one session). -/
def noCompletedClick (N : Nat) (s : AppState) : List Input → Bool
  | [] => true
  | i :: is => clickOk s i && noCompletedClick N (stepState N s i) is

/-- The `animate` frame callback of the `vite.config.ts` variant (lines
169-193 of that file): `const delta = previous && time - previous;
previous = time; if (!delta) return; ...` — the frame is skipped (after
storing the new timestamp) whenever the computed delta is falsy: `previous`
unset, `previous` exactly `0`, or `time` equal to `previous`. -/
def animateB (N : Nat) (s : AppState) (time : ℚ) : AppState × List Event :=
  match s.previous with
  | none => ({ s with previous := some time }, [])
  | some p =>
      if p = 0 then ({ s with previous := some time }, [])
      else if time - p = 0 then ({ s with previous := some time }, [])
      else
        let v : ℚ := integrateValue s p time
        let s1 : AppState := { s with value := v, previous := some time }
        if 0 < direction s.phase then
          if 1 ≤ v then setPhase N s1 Phase.Out else (s1, [])
        else
          if v ≤ 0 then setPhase N s1 Phase.In else (s1, [])

/-- Renderer-observable part of the state: everything except the internal
delta baseline `previous` and the audio-api latch. -/
structure Obs where
  config : Config
  value : ℚ
  mode : Mode
  breatheCount : Nat
  phase : Phase
deriving DecidableEq, Repr

/-- Observation of a state. -/
def AppState.obs (s : AppState) : Obs :=
  { config := s.config
    value := s.value
    mode := s.mode
    breatheCount := s.breatheCount
    phase := s.phase }

/-- States visited by a sequence of animation frames at the given
timestamps. -/
def trajStates (N : Nat) (s : AppState) : List ℚ → List AppState
  | [] => []
  | t :: ts =>
      stepState N s (Input.tick t) :: trajStates N (stepState N s (Input.tick t)) ts

/-- Relation between the delta baselines of a run and of the same run with
the wall-clock gap `g` removed: both unset, or both set, shifted by `g` and
both truthy. -/
def PrevRel (g : ℚ) (o1 o2 : Option ℚ) : Prop :=
  (o1 = none ∧ o2 = none) ∨
    ∃ p : ℚ, p ≠ 0 ∧ p - g ≠ 0 ∧ o1 = some p ∧ o2 = some (p - g)



attribute [local semireducible] Rat.add Rat.mul Rat.inv Rat.sub Rat.ofScientific

theorem runState_nil (N : Nat) (s : AppState) : runState N s [] = s := rfl

theorem runState_cons (N : Nat) (s : AppState) (i : Input) (l : List Input) :
    runState N s (i :: l) = runState N (stepState N s i) l := rfl

theorem runEvents_cons (N : Nat) (s : AppState) (i : Input) (l : List Input) :
    runEvents N s (i :: l) = (applyInput N s i).2 ++ runEvents N (stepState N s i) l := rfl

theorem setPhase_Out (N : Nat) (s : AppState) :
    setPhase N s Phase.Out =
      ({ s with phase := Phase.Out },
        Event.flip Phase.Out ::
          (if s.audioReady then [Event.tone (toneFor Phase.Out)] else [])) := rfl

theorem setPhase_In_complete (N : Nat) (s : AppState) (h : s.breatheCount + 1 = N) :
    setPhase N s Phase.In =
      ({ s with phase := Phase.In, breatheCount := 0, mode := Mode.completed },
        Event.flip Phase.In ::
          (if s.audioReady then [Event.tone (toneFor Phase.In)] else [])) := by
  simp [setPhase, h]

theorem setPhase_In_continue (N : Nat) (s : AppState) (h : ¬s.breatheCount + 1 = N) :
    setPhase N s Phase.In =
      ({ s with phase := Phase.In, breatheCount := s.breatheCount + 1 },
        Event.flip Phase.In ::
          (if s.audioReady then [Event.tone (toneFor Phase.In)] else [])) := by
  simp [setPhase, h]

theorem animate_noBaseline (N : Nat) (s : AppState) (t : ℚ) (h : s.previous = none) :
    animate N s t = ({ s with previous := some t }, []) := by
  simp [animate, h]

theorem animate_zeroBaseline (N : Nat) (s : AppState) (t : ℚ) (h : s.previous = some 0) :
    animate N s t = ({ s with previous := some t }, []) := by
  simp [animate, h]

theorem animate_In_flip (N : Nat) (s : AppState) (t p : ℚ) (h : s.previous = some p)
    (hp : p ≠ 0) (hph : s.phase = Phase.In) (hb : 1 ≤ integrateValue s p t) :
    animate N s t =
      ({ (setPhase N { s with value := integrateValue s p t } Phase.Out).1 with
          previous := some t },
        (setPhase N { s with value := integrateValue s p t } Phase.Out).2) := by
  simp [animate, h, hp, hph, direction, hb]

theorem animate_In_noflip (N : Nat) (s : AppState) (t p : ℚ) (h : s.previous = some p)
    (hp : p ≠ 0) (hph : s.phase = Phase.In) (hb : ¬1 ≤ integrateValue s p t) :
    animate N s t =
      ({ s with value := integrateValue s p t, previous := some t }, []) := by
  simp [animate, h, hp, hph, direction, hb]

theorem animate_Out_flip (N : Nat) (s : AppState) (t p : ℚ) (h : s.previous = some p)
    (hp : p ≠ 0) (hph : s.phase = Phase.Out) (hb : integrateValue s p t ≤ 0) :
    animate N s t =
      ({ (setPhase N { s with value := integrateValue s p t } Phase.In).1 with
          previous := some t },
        (setPhase N { s with value := integrateValue s p t } Phase.In).2) := by
  simp [animate, h, hp, hph, direction, hb]

theorem animate_Out_noflip (N : Nat) (s : AppState) (t p : ℚ) (h : s.previous = some p)
    (hp : p ≠ 0) (hph : s.phase = Phase.Out) (hb : ¬integrateValue s p t ≤ 0) :
    animate N s t =
      ({ s with value := integrateValue s p t, previous := some t }, []) := by
  simp [animate, h, hp, hph, direction, hb]

theorem flushEffects_playing (s : AppState) (h : s.mode = Mode.playing) :
    flushEffects s = { s with audioReady := true } := by
  simp [flushEffects, h]

theorem flushEffects_completed (s : AppState) (h : s.mode = Mode.completed) :
    flushEffects s = { s with audioReady := true, previous := none } := by
  simp [flushEffects, h]

theorem applyInput_click (N : Nat) (s : AppState) :
    applyInput N s Input.clickPlayPause =
      (flushEffects { s with mode := clickPlayPause s.mode }, []) := rfl

theorem applyInput_increment (N : Nat) (s : AppState) (ph : Phase) (δ : ℚ) :
    applyInput N s (Input.increment ph δ) =
      (flushEffects { s with config := setConfigDelta s.config ph δ }, []) := rfl

theorem applyInput_tick_playing (N : Nat) (s : AppState) (t : ℚ) (h : s.mode = Mode.playing) :
    applyInput N s (Input.tick t) = (flushEffects (animate N s t).1, (animate N s t).2) := by
  simp [applyInput, h]

theorem applyInput_tick_stopped (N : Nat) (s : AppState) (t : ℚ) (h : s.mode ≠ Mode.playing) :
    applyInput N s (Input.tick t) = (s, []) := by
  simp [applyInput, h]

/-- Inductive invariant of reachable states. -/
def Inv (s : AppState) : Prop :=
  (s.phase = Phase.In → s.value < 1) ∧
  (s.phase = Phase.Out → 0 < s.value) ∧
  (s.mode = Mode.playing → s.audioReady = true) ∧
  (s.mode ≠ Mode.playing → s.previous = none) ∧
  (0 < s.config.«in» ∧ s.config.«in» < 100 ∧ 0 < s.config.«out» ∧ s.config.«out» < 100)

theorem handleInput_bounds {v : ℚ} (δ : ℚ) (h0 : 0 < v) (h100 : v < 100) :
    0 < handleInput v δ ∧ handleInput v δ < 100 := by
  unfold handleInput
  split_ifs with h1 h2 h3
  · exact ⟨h2, by linarith⟩
  · exact ⟨h0, h100⟩
  · exact ⟨by linarith, h3⟩
  · exact ⟨h0, h100⟩

theorem inv_initialState : Inv initialState := by
  refine ⟨?_, ?_, ?_, ?_, ?_, ?_, ?_, ?_⟩ <;> simp [initialState, Inv] <;> norm_num

theorem inv_step (N : Nat) (s : AppState) (i : Input) (h : Inv s) : Inv (stepState N s i) := by
  obtain ⟨h1, h2, h3, h4, hc1, hc2, hc3, hc4⟩ := h
  cases i with
  | clickPlayPause =>
      rcases s with ⟨⟨cin, cout⟩, v, m, cnt, ph, prev, ar⟩
      simp only at h1 h2 h3 h4 hc1 hc2 hc3 hc4
      cases m <;>
        simp_all [stepState, applyInput_click, clickPlayPause, flushEffects, Inv]
  | increment ph2 δ =>
      rcases s with ⟨⟨cin, cout⟩, v, m, cnt, ph, prev, ar⟩
      simp only at h1 h2 h3 h4 hc1 hc2 hc3 hc4
      have hin := handleInput_bounds (v := cin) δ hc1 hc2
      have hout := handleInput_bounds (v := cout) δ hc3 hc4
      cases ph2 <;> cases m <;>
        simp_all [stepState, applyInput_increment, setConfigDelta, handleInput, flushEffects, Inv]
  | tick t =>
      by_cases hm : s.mode = Mode.playing
      · rw [stepState, applyInput_tick_playing N s t hm]
        rcases hprev : s.previous with _ | p
        · rw [animate_noBaseline N s t hprev]
          rcases s with ⟨⟨cin, cout⟩, v, m, cnt, ph, prev, ar⟩
          simp only at h1 h2 h3 h4 hc1 hc2 hc3 hc4 hm
          subst hm
          simp_all [flushEffects, Inv]
        · by_cases hp : p = 0
          · subst hp
            rw [animate_zeroBaseline N s t hprev]
            rcases s with ⟨⟨cin, cout⟩, v, m, cnt, ph, prev, ar⟩
            simp only at h1 h2 h3 h4 hc1 hc2 hc3 hc4 hm
            subst hm
            simp_all [flushEffects, Inv]
          · rcases hph : s.phase with _ | _
            · by_cases hb : 1 ≤ integrateValue s p t
              · rw [animate_In_flip N s t p hprev hp hph hb, setPhase_Out]
                rcases s with ⟨⟨cin, cout⟩, v, m, cnt, ph, prev, ar⟩
                simp only at h1 h2 h3 h4 hc1 hc2 hc3 hc4 hm hph
                subst hm
                refine ⟨?_, ?_, ?_, ?_, ?_, ?_, ?_, ?_⟩ <;>
                  simp_all [flushEffects, Inv] <;> linarith
              · rw [animate_In_noflip N s t p hprev hp hph hb]
                rcases s with ⟨⟨cin, cout⟩, v, m, cnt, ph, prev, ar⟩
                simp only at h1 h2 h3 h4 hc1 hc2 hc3 hc4 hm hph
                subst hm
                refine ⟨?_, ?_, ?_, ?_, ?_, ?_, ?_, ?_⟩ <;>
                  simp_all [flushEffects, Inv]
            · by_cases hb : integrateValue s p t ≤ 0
              · by_cases hN : s.breatheCount + 1 = N
                · rw [animate_Out_flip N s t p hprev hp hph hb,
                    setPhase_In_complete N { s with value := integrateValue s p t } hN]
                  rcases s with ⟨⟨cin, cout⟩, v, m, cnt, ph, prev, ar⟩
                  simp only at h1 h2 h3 h4 hc1 hc2 hc3 hc4 hm hph
                  subst hm
                  refine ⟨?_, ?_, ?_, ?_, ?_, ?_, ?_, ?_⟩ <;>
                    simp_all [flushEffects, Inv] <;> linarith
                · rw [animate_Out_flip N s t p hprev hp hph hb,
                    setPhase_In_continue N { s with value := integrateValue s p t } hN]
                  rcases s with ⟨⟨cin, cout⟩, v, m, cnt, ph, prev, ar⟩
                  simp only at h1 h2 h3 h4 hc1 hc2 hc3 hc4 hm hph
                  subst hm
                  refine ⟨?_, ?_, ?_, ?_, ?_, ?_, ?_, ?_⟩ <;>
                    simp_all [flushEffects, Inv] <;> linarith
              · rw [animate_Out_noflip N s t p hprev hp hph hb]
                rcases s with ⟨⟨cin, cout⟩, v, m, cnt, ph, prev, ar⟩
                simp only at h1 h2 h3 h4 hc1 hc2 hc3 hc4 hm hph
                subst hm
                refine ⟨?_, ?_, ?_, ?_, ?_, ?_, ?_, ?_⟩ <;>
                  simp_all [flushEffects, Inv]
      · rw [stepState, applyInput_tick_stopped N s t hm]
        exact ⟨h1, h2, h3, h4, hc1, hc2, hc3, hc4⟩

theorem inv_runState (N : Nat) (s : AppState) (l : List Input) (h : Inv s) :
    Inv (runState N s l) := by
  induction l generalizing s with
  | nil => exact h
  | cons i is ih => exact ih _ (inv_step N s i h)

theorem inv_reachable {N : Nat} {s : AppState} (h : Reachable N s) : Inv s := by
  obtain ⟨l, rfl⟩ := h
  exact inv_runState N initialState l inv_initialState


theorem flushEffects_mode (s : AppState) : (flushEffects s).mode = s.mode := by
  simp only [flushEffects]
  split <;> rfl

theorem flushEffects_value (s : AppState) : (flushEffects s).value = s.value := by
  simp only [flushEffects]
  split <;> rfl

theorem flushEffects_paused (s : AppState) (h : s.mode = Mode.paused) :
    flushEffects s = { s with audioReady := true, previous := none } := by
  simp [flushEffects, h]

theorem setPhase_fst_value (N : Nat) (s : AppState) (ph : Phase) :
    (setPhase N s ph).1.value = s.value := by
  cases ph <;> simp only [setPhase] <;> split <;> rfl

theorem setPhase_fst_previous (N : Nat) (s : AppState) (ph : Phase) :
    (setPhase N s ph).1.previous = s.previous := by
  cases ph <;> simp only [setPhase] <;> split <;> rfl

theorem setPhase_snd (N : Nat) (s : AppState) (ph : Phase) :
    (setPhase N s ph).2 =
      Event.flip ph :: (if s.audioReady then [Event.tone (toneFor ph)] else []) := by
  cases ph <;> simp only [setPhase] <;> split <;> rfl

/-- Value of the progress signal after an integrating tick: the integrated
value, whether or not the boundary check flips the phase (a flip never alters
`value`). -/
theorem stepTick_value (N : Nat) (s : AppState) (t p : ℚ) (hm : s.mode = Mode.playing)
    (hprev : s.previous = some p) (hp : p ≠ 0) :
    (stepState N s (Input.tick t)).value = integrateValue s p t := by
  rw [stepState, applyInput_tick_playing N s t hm, flushEffects_value]
  rcases hph : s.phase with _ | _
  · by_cases hb : 1 ≤ integrateValue s p t
    · rw [animate_In_flip N s t p hprev hp hph hb]
      simpa using setPhase_fst_value N { s with value := integrateValue s p t } Phase.Out
    · rw [animate_In_noflip N s t p hprev hp hph hb]
  · by_cases hb : integrateValue s p t ≤ 0
    · rw [animate_Out_flip N s t p hprev hp hph hb]
      simpa using setPhase_fst_value N { s with value := integrateValue s p t } Phase.In
    · rw [animate_Out_noflip N s t p hprev hp hph hb]

/-- Events of an integrating tick, for a state whose audio api is up: a flip
event plus exactly one tone on a boundary crossing, nothing otherwise. -/
theorem stepTick_events (N : Nat) (s : AppState) (t p : ℚ) (hm : s.mode = Mode.playing)
    (hprev : s.previous = some p) (hp : p ≠ 0) (har : s.audioReady = true) :
    (applyInput N s (Input.tick t)).2 =
      if s.phase = Phase.In ∧ 1 ≤ integrateValue s p t then
        [Event.flip Phase.Out, Event.tone (toneFor Phase.Out)]
      else if s.phase = Phase.Out ∧ integrateValue s p t ≤ 0 then
        [Event.flip Phase.In, Event.tone (toneFor Phase.In)]
      else [] := by
  rw [applyInput_tick_playing N s t hm]
  rcases hph : s.phase with _ | _
  · by_cases hb : 1 ≤ integrateValue s p t
    · rw [animate_In_flip N s t p hprev hp hph hb, setPhase_snd]
      simp [har, hb]
    · rw [animate_In_noflip N s t p hprev hp hph hb]
      simp [hb]
  · by_cases hb : integrateValue s p t ≤ 0
    · rw [animate_Out_flip N s t p hprev hp hph hb, setPhase_snd]
      simp [har, hb]
    · rw [animate_Out_noflip N s t p hprev hp hph hb]
      simp [hb]

/-- C1 (amended): after any tick (indeed in every reachable state) the
progress value satisfies the phase-relative bound `value < 1` while the phase
is `in` and `0 < value` while the phase is `out`; progress is not confined to
`[0,1]`, since a boundary overshoot persists into the next phase instead of
being clamped. -/
theorem C1_progress_phase_bounds (N : Nat) (s : AppState) (h : Reachable N s) :
    (s.phase = Phase.In → s.value < 1) ∧ (s.phase = Phase.Out → 0 < s.value) :=
  ⟨(inv_reachable h).1, (inv_reachable h).2.1⟩

theorem C1_progress_phase_bounds_witness :
    Reachable 1 (runState 1 initialState
      [Input.clickPlayPause, Input.tick 1000, Input.tick 8000]) ∧
    ((runState 1 initialState
        [Input.clickPlayPause, Input.tick 1000, Input.tick 8000]).phase = Phase.In →
      (runState 1 initialState
        [Input.clickPlayPause, Input.tick 1000, Input.tick 8000]).value < 1) ∧
    ((runState 1 initialState
        [Input.clickPlayPause, Input.tick 1000, Input.tick 8000]).phase = Phase.Out →
      0 < (runState 1 initialState
        [Input.clickPlayPause, Input.tick 1000, Input.tick 8000]).value) :=
  ⟨⟨[Input.clickPlayPause, Input.tick 1000, Input.tick 8000], rfl⟩,
    C1_progress_phase_bounds 1 _
      ⟨[Input.clickPlayPause, Input.tick 1000, Input.tick 8000], rfl⟩⟩

/-- C1 counterexample: with both configured durations strictly positive
(the initial 3.5s/12s), starting the session and ticking at t = 1000 ms
(baseline) and t = 8000 ms integrates a 7000 ms frame, leaving the progress
value at 2 after the boundary-check/phase-flip logic of that tick has run:
the claim `0 ≤ progress ≤ 1` after any tick is false of the code (the
overshoot is reinterpreted as the start of phase `out` but never clamped). -/
theorem C1_counterexample :
    0 < initialState.config.«in» ∧ 0 < initialState.config.«out» ∧
    (runState 1 initialState
      [Input.clickPlayPause, Input.tick 1000, Input.tick 8000]).value = 2 ∧
    ¬(0 ≤ (runState 1 initialState
        [Input.clickPlayPause, Input.tick 1000, Input.tick 8000]).value ∧
      (runState 1 initialState
        [Input.clickPlayPause, Input.tick 1000, Input.tick 8000]).value ≤ 1) := by
  decide

/-- C2 (amended): while the mode is `completed`, ticks are ignored (the frame
loop is stopped) and duration edits leave the mode `completed`; but the
play/pause toggle is not a no-op in `completed`: it maps every mode other
than `playing` — `completed` included — to `playing`, so `completed` is not
terminal under the public surface. -/
theorem C2_completed_not_terminal (N : Nat) (s : AppState) (h : s.mode = Mode.completed) :
    (∀ t : ℚ, stepState N s (Input.tick t) = s) ∧
    (∀ (ph : Phase) (δ : ℚ), (stepState N s (Input.increment ph δ)).mode = Mode.completed) ∧
    (stepState N s Input.clickPlayPause).mode = Mode.playing := by
  refine ⟨fun t => ?_, fun ph δ => ?_, ?_⟩
  · rw [stepState, applyInput_tick_stopped N s t (by rw [h]; exact fun hc => by cases hc)]
  · rw [stepState, applyInput_increment, flushEffects_mode]
    exact h
  · rw [stepState, applyInput_click, flushEffects_mode]
    rw [h]
    rfl

theorem C2_completed_not_terminal_witness :
    (runState 1 initialState
      [Input.clickPlayPause, Input.tick 1000, Input.tick 8000,
        Input.tick 32000]).mode = Mode.completed ∧
    (∀ t : ℚ, stepState 1 (runState 1 initialState
      [Input.clickPlayPause, Input.tick 1000, Input.tick 8000,
        Input.tick 32000]) (Input.tick t) =
      runState 1 initialState
        [Input.clickPlayPause, Input.tick 1000, Input.tick 8000, Input.tick 32000]) ∧
    (∀ (ph : Phase) (δ : ℚ), (stepState 1 (runState 1 initialState
      [Input.clickPlayPause, Input.tick 1000, Input.tick 8000,
        Input.tick 32000]) (Input.increment ph δ)).mode = Mode.completed) ∧
    (stepState 1 (runState 1 initialState
      [Input.clickPlayPause, Input.tick 1000, Input.tick 8000,
        Input.tick 32000]) Input.clickPlayPause).mode = Mode.playing :=
  ⟨by decide, (C2_completed_not_terminal 1 _ (by decide)).1,
    (C2_completed_not_terminal 1 _ (by decide)).2.1,
    (C2_completed_not_terminal 1 _ (by decide)).2.2⟩

/-- C2 counterexample: a completed session (target 1, one full breath at the
initial durations) is left by clicking the play/pause button: the mode moves
from `completed` back to `playing`, so the toggle in `completed` mode is not
a no-op and `completed` is not preserved by user operations. -/
theorem C2_counterexample :
    (runState 1 initialState
      [Input.clickPlayPause, Input.tick 1000, Input.tick 8000,
        Input.tick 32000]).mode = Mode.completed ∧
    (stepState 1 (runState 1 initialState
      [Input.clickPlayPause, Input.tick 1000, Input.tick 8000,
        Input.tick 32000]) Input.clickPlayPause).mode = Mode.playing ∧
    (stepState 1 (runState 1 initialState
      [Input.clickPlayPause, Input.tick 1000, Input.tick 8000,
        Input.tick 32000]) Input.clickPlayPause).mode ≠ Mode.completed := by
  decide

/-- State with a non-positive configured `in` duration.  It is not reachable
through the UI (see the amended C6 theorem); it exhibits what the tick code
does when the guard the specification describes would be needed. -/
def negDurState : AppState :=
  { config := { «in» := -1, «out» := 12 }
    value := 0
    mode := Mode.playing
    breatheCount := 0
    phase := Phase.In
    previous := some 1000
    audioReady := true }

/-- C6 counterexample: the tick code has no `duration ≤ 0` guard.  On a state
whose current phase has configured duration `-1 ≤ 0`, the tick at t = 2000 ms
integrates right through the non-positive duration and changes the progress
value (to `-1`), instead of skipping integration and leaving it unchanged as
the claim states. -/
theorem C6_counterexample :
    Config.get negDurState.config negDurState.phase ≤ 0 ∧
    (stepState 1 negDurState (Input.tick 2000)).value = -1 ∧
    (stepState 1 negDurState (Input.tick 2000)).value ≠ negDurState.value := by
  decide

/-- C6 (amended): the tick performs no non-positive-duration skip (see the
counterexample); instead non-positive durations are unreachable: in every
reachable state both configured durations are strictly within `(0,100)`
(maintained by the `handleInput` guard from the initial 3.5/12), so no tick
ever divides by zero and the progress value of every reachable state is a
well-defined finite rational. -/
theorem C6_durations_never_nonpositive (N : Nat) (s : AppState) (h : Reachable N s) :
    0 < s.config.«in» ∧ s.config.«in» < 100 ∧
      0 < s.config.«out» ∧ s.config.«out» < 100 :=
  (inv_reachable h).2.2.2.2

theorem C6_durations_never_nonpositive_witness :
    Reachable 1 (runState 1 initialState
      [Input.increment Phase.In (-(1/2)), Input.clickPlayPause, Input.tick 1000]) ∧
    0 < (runState 1 initialState
      [Input.increment Phase.In (-(1/2)), Input.clickPlayPause, Input.tick 1000]).config.«in» ∧
    (runState 1 initialState
      [Input.increment Phase.In (-(1/2)), Input.clickPlayPause, Input.tick 1000]).config.«in» < 100 ∧
    0 < (runState 1 initialState
      [Input.increment Phase.In (-(1/2)), Input.clickPlayPause, Input.tick 1000]).config.«out» ∧
    (runState 1 initialState
      [Input.increment Phase.In (-(1/2)), Input.clickPlayPause, Input.tick 1000]).config.«out» < 100 :=
  ⟨⟨[Input.increment Phase.In (-(1/2)), Input.clickPlayPause, Input.tick 1000], rfl⟩,
    (C6_durations_never_nonpositive 1 _
      ⟨[Input.increment Phase.In (-(1/2)), Input.clickPlayPause, Input.tick 1000], rfl⟩).1,
    (C6_durations_never_nonpositive 1 _
      ⟨[Input.increment Phase.In (-(1/2)), Input.clickPlayPause, Input.tick 1000], rfl⟩).2.1,
    (C6_durations_never_nonpositive 1 _
      ⟨[Input.increment Phase.In (-(1/2)), Input.clickPlayPause, Input.tick 1000], rfl⟩).2.2.1,
    (C6_durations_never_nonpositive 1 _
      ⟨[Input.increment Phase.In (-(1/2)), Input.clickPlayPause, Input.tick 1000], rfl⟩).2.2.2⟩

theorem handleInput_foldl_bounds (ds : List ℚ) : ∀ v : ℚ, 0 < v → v < 100 →
    0 < List.foldl handleInput v ds ∧ List.foldl handleInput v ds < 100 := by
  induction ds with
  | nil => exact fun v h0 h100 => ⟨h0, h100⟩
  | cons d ds ih =>
      intro v h0 h100
      have h := handleInput_bounds (v := v) d h0 h100
      simpa using ih (handleInput v d) h.1 h.2

/-- C8: a duration-increment call with step `±0.5` on a value strictly within
`(0,100)` applies the step exactly when the adjusted value stays strictly
within `(0,100)` and is a silent no-op otherwise, and any sequence of such
calls (each independently re-checked) keeps the stored value strictly within
`(0,100)`. -/
theorem C8_increment_contract (v δ : ℚ) (h0 : 0 < v) (h100 : v < 100)
    (hδ : δ = 1/2 ∨ δ = -(1/2)) :
    ((0 < v + δ ∧ v + δ < 100) → handleInput v δ = v + δ) ∧
    (¬(0 < v + δ ∧ v + δ < 100) → handleInput v δ = v) ∧
    ∀ ds : List ℚ, (∀ d ∈ ds, d = 1/2 ∨ d = -(1/2)) →
      0 < List.foldl handleInput v ds ∧ List.foldl handleInput v ds < 100 := by
  refine ⟨?_, ?_, fun ds _ => handleInput_foldl_bounds ds v h0 h100⟩
  · rintro ⟨ha, hb⟩
    unfold handleInput
    rcases hδ with rfl | rfl
    · rw [if_neg (by norm_num), if_pos hb]
    · rw [if_pos (by norm_num), if_pos ha]
  · intro hnot
    unfold handleInput
    rcases hδ with rfl | rfl
    · rw [if_neg (by norm_num : ¬(1:ℚ)/2 < 0),
        if_neg (fun hb : v + 1/2 < 100 => hnot ⟨by linarith, hb⟩)]
    · rw [if_pos (by norm_num : -((1:ℚ)/2) < 0),
        if_neg (fun ha : 0 < v + -(1/2) => hnot ⟨ha, by linarith⟩)]

theorem C8_increment_contract_witness :
    ((0 < (99.8 : ℚ) + 1/2 ∧ (99.8 : ℚ) + 1/2 < 100) →
        handleInput 99.8 (1/2) = 99.8 + 1/2) ∧
    (¬(0 < (99.8 : ℚ) + 1/2 ∧ (99.8 : ℚ) + 1/2 < 100) →
        handleInput 99.8 (1/2) = 99.8) ∧
    (∀ ds : List ℚ, (∀ d ∈ ds, d = 1/2 ∨ d = -(1/2)) →
      0 < List.foldl handleInput (99.8 : ℚ) ds ∧
        List.foldl handleInput (99.8 : ℚ) ds < 100) :=
  C8_increment_contract 99.8 (1/2) (by norm_num) (by norm_num) (Or.inl rfl)

/-- Concrete mid-session state: the state reached from the initial state by
starting the session and delivering the baseline frame at t = 1000 ms. -/
def demoPlaying : AppState :=
  { config := { «in» := 7/2, «out» := 12 }
    value := 0
    mode := Mode.playing
    breatheCount := 0
    phase := Phase.In
    previous := some 1000
    audioReady := true }

theorem demoPlaying_reachable : Reachable 1 demoPlaying :=
  ⟨[Input.clickPlayPause, Input.tick 1000], by decide⟩

/-- C3: on any single tick of a reachable playing state with a truthy delta
baseline, at most one phase flip occurs; a flip occurs exactly when the
signed progress crossed the current phase's boundary during that tick (from
strictly inside the phase to at-or-past the boundary), however large the
frame delta; and the number of audio cues equals the number of flips (one
per flip, none otherwise). -/
theorem C3_one_flip_per_crossing (N : Nat) (s : AppState) (t p : ℚ)
    (h : Reachable N s) (hm : s.mode = Mode.playing)
    (hprev : s.previous = some p) (hp : p ≠ 0) :
    (((applyInput N s (Input.tick t)).2.filter Event.isFlip).length ≤ 1) ∧
    ((((applyInput N s (Input.tick t)).2.filter Event.isFlip).length = 1) ↔
      ((s.phase = Phase.In ∧ s.value < 1 ∧ 1 ≤ integrateValue s p t) ∨
        (s.phase = Phase.Out ∧ 0 < s.value ∧ integrateValue s p t ≤ 0))) ∧
    (((applyInput N s (Input.tick t)).2.filter Event.isTone).length =
      ((applyInput N s (Input.tick t)).2.filter Event.isFlip).length) := by
  have hInv := inv_reachable h
  have har : s.audioReady = true := hInv.2.2.1 hm
  rw [stepTick_events N s t p hm hprev hp har]
  by_cases h1 : s.phase = Phase.In ∧ 1 ≤ integrateValue s p t
  · rw [if_pos h1]
    refine ⟨by decide, ?_, by decide⟩
    exact ⟨fun _ => Or.inl ⟨h1.1, hInv.1 h1.1, h1.2⟩, fun _ => by decide⟩
  · rw [if_neg h1]
    by_cases h2 : s.phase = Phase.Out ∧ integrateValue s p t ≤ 0
    · rw [if_pos h2]
      refine ⟨by decide, ?_, by decide⟩
      exact ⟨fun _ => Or.inr ⟨h2.1, hInv.2.1 h2.1, h2.2⟩, fun _ => by decide⟩
    · rw [if_neg h2]
      refine ⟨by decide, ?_, by decide⟩
      constructor
      · intro hl
        exact absurd hl (by decide)
      · rintro (⟨ha, _, hb⟩ | ⟨ha, _, hb⟩)
        · exact absurd ⟨ha, hb⟩ h1
        · exact absurd ⟨ha, hb⟩ h2

theorem C3_one_flip_per_crossing_witness :
    Reachable 1 demoPlaying ∧
    (((applyInput 1 demoPlaying (Input.tick 8000)).2.filter Event.isFlip).length ≤ 1) ∧
    ((((applyInput 1 demoPlaying (Input.tick 8000)).2.filter Event.isFlip).length = 1) ↔
      ((demoPlaying.phase = Phase.In ∧ demoPlaying.value < 1 ∧
          1 ≤ integrateValue demoPlaying 1000 8000) ∨
        (demoPlaying.phase = Phase.Out ∧ 0 < demoPlaying.value ∧
          integrateValue demoPlaying 1000 8000 ≤ 0))) ∧
    (((applyInput 1 demoPlaying (Input.tick 8000)).2.filter Event.isTone).length =
      ((applyInput 1 demoPlaying (Input.tick 8000)).2.filter Event.isFlip).length) :=
  ⟨demoPlaying_reachable,
    C3_one_flip_per_crossing 1 demoPlaying 8000 1000 demoPlaying_reachable
      (by decide) (by decide) (by decide)⟩

/-- C7: the duration of the current phase is read from the configuration
afresh on every tick.  A duration edit while playing leaves progress, phase,
mode, baseline and breath counter unchanged, and the next tick's progress
value equals the old progress plus `delta * direction / (newDuration * 1000)`
computed from the edited configuration. -/
theorem C7_duration_read_fresh (N : Nat) (s : AppState) (ph : Phase) (δ t p : ℚ)
    (hm : s.mode = Mode.playing) (hprev : s.previous = some p) (hp : p ≠ 0) :
    (stepState N s (Input.increment ph δ)).value = s.value ∧
    (stepState N s (Input.increment ph δ)).phase = s.phase ∧
    (stepState N s (Input.increment ph δ)).mode = s.mode ∧
    (stepState N s (Input.increment ph δ)).previous = s.previous ∧
    (stepState N s (Input.increment ph δ)).breatheCount = s.breatheCount ∧
    (stepState N (stepState N s (Input.increment ph δ)) (Input.tick t)).value =
      s.value + (t - p) * direction s.phase /
        (Config.get (setConfigDelta s.config ph δ) s.phase * 1000) := by
  have hstep : stepState N s (Input.increment ph δ) =
      { s with config := setConfigDelta s.config ph δ, audioReady := true } := by
    rw [stepState, applyInput_increment]
    exact flushEffects_playing _ hm
  rw [hstep]
  refine ⟨rfl, rfl, rfl, rfl, rfl, ?_⟩
  have hval := stepTick_value N
    { s with config := setConfigDelta s.config ph δ, audioReady := true } t p hm hprev hp
  rw [hval]
  rfl

theorem C7_duration_read_fresh_witness :
    (stepState 1 demoPlaying (Input.increment Phase.In (1/2))).value = demoPlaying.value ∧
    (stepState 1 demoPlaying (Input.increment Phase.In (1/2))).phase = demoPlaying.phase ∧
    (stepState 1 demoPlaying (Input.increment Phase.In (1/2))).mode = demoPlaying.mode ∧
    (stepState 1 demoPlaying (Input.increment Phase.In (1/2))).previous =
      demoPlaying.previous ∧
    (stepState 1 demoPlaying (Input.increment Phase.In (1/2))).breatheCount =
      demoPlaying.breatheCount ∧
    (stepState 1 (stepState 1 demoPlaying (Input.increment Phase.In (1/2)))
        (Input.tick 3000)).value =
      demoPlaying.value + (3000 - 1000) * direction demoPlaying.phase /
        (Config.get (setConfigDelta demoPlaying.config Phase.In (1/2))
          demoPlaying.phase * 1000) :=
  C7_duration_read_fresh 1 demoPlaying Phase.In (1/2) 3000 1000
    (by decide) (by decide) (by decide)

/-- C9: a flip into phase `out` (progress reached 1 while inhaling) emits the
phase-transition event followed by exactly one audio cue at the fixed G#3
frequency 207.65 Hz; a flip into phase `in` emits exactly one cue at the
fixed C2 frequency 130.81 Hz; the `in` frequency is strictly lower. -/
theorem C9_audio_frequencies (N : Nat) (s : AppState) (t p : ℚ)
    (h : Reachable N s) (hm : s.mode = Mode.playing)
    (hprev : s.previous = some p) (hp : p ≠ 0) :
    (s.phase = Phase.In → 1 ≤ integrateValue s p t →
      (applyInput N s (Input.tick t)).2 =
        [Event.flip Phase.Out, Event.tone 207.65]) ∧
    (s.phase = Phase.Out → integrateValue s p t ≤ 0 →
      (applyInput N s (Input.tick t)).2 =
        [Event.flip Phase.In, Event.tone 130.81]) ∧
    (130.81 : ℚ) < 207.65 := by
  have har : s.audioReady = true := (inv_reachable h).2.2.1 hm
  rw [stepTick_events N s t p hm hprev hp har]
  refine ⟨fun hph hb => ?_, fun hph hb => ?_, by norm_num⟩
  · rw [if_pos ⟨hph, hb⟩]
    rfl
  · rw [if_neg (by simp [hph]), if_pos ⟨hph, hb⟩]
    rfl

theorem C9_audio_frequencies_witness :
    Reachable 1 demoPlaying ∧
    (demoPlaying.phase = Phase.In → 1 ≤ integrateValue demoPlaying 1000 8000 →
      (applyInput 1 demoPlaying (Input.tick 8000)).2 =
        [Event.flip Phase.Out, Event.tone 207.65]) ∧
    (demoPlaying.phase = Phase.Out → integrateValue demoPlaying 1000 8000 ≤ 0 →
      (applyInput 1 demoPlaying (Input.tick 8000)).2 =
        [Event.flip Phase.In, Event.tone 130.81]) ∧
    (130.81 : ℚ) < 207.65 :=
  ⟨demoPlaying_reachable,
    C9_audio_frequencies 1 demoPlaying 8000 1000 demoPlaying_reachable
      (by decide) (by decide) (by decide)⟩

theorem animateB_zeroPrev (N : Nat) (s : AppState) (u : ℚ) (h : s.previous = some 0) :
    animateB N s u = ({ s with previous := some u }, []) := by
  simp [animateB, h]

theorem animateB_fst_previous (N : Nat) (s : AppState) (time : ℚ) :
    (animateB N s time).1.previous = some time := by
  rcases hprev : s.previous with _ | p
  · simp [animateB, hprev]
  · by_cases hp : p = 0
    · simp [animateB, hprev, hp]
    · by_cases ht : time - p = 0
      · simp [animateB, hprev, hp, ht]
      · simp only [animateB, hprev]
        rw [if_neg hp, if_neg ht]
        split_ifs <;> simp [setPhase_fst_previous]

/-- C10 (for the `vite.config.ts` variant, whose `animate` computes
`delta = previous && time - previous` and returns early when `delta` is
falsy): a tick whose delta is falsy — baseline unset, baseline exactly 0, or
timestamp equal to the baseline — changes nothing except storing the new
timestamp as the baseline and emits no event; and a frame delivered at
timestamp 0 cannot serve as a baseline: the tick after a tick at time 0 is
again such a pure baseline-storing tick. -/
theorem C10_falsy_delta_skips (N : Nat) (s : AppState) (t u : ℚ)
    (h : s.previous = none ∨ s.previous = some 0 ∨ s.previous = some t) :
    animateB N s t = ({ s with previous := some t }, []) ∧
    animateB N (animateB N s 0).1 u =
      ({ (animateB N s 0).1 with previous := some u }, []) := by
  constructor
  · rcases h with h | h | h
    · simp [animateB, h]
    · simp [animateB, h]
    · by_cases h1 : t = 0
      · simp [animateB, h, h1]
      · simp only [animateB, h]
        rw [if_neg h1, if_pos (sub_self t)]
  · exact animateB_zeroPrev N _ u (animateB_fst_previous N s 0)

theorem C10_falsy_delta_skips_witness :
    animateB 1 initialState 500 = ({ initialState with previous := some 500 }, []) ∧
    animateB 1 (animateB 1 initialState 0).1 700 =
      ({ (animateB 1 initialState 0).1 with previous := some 700 }, []) :=
  C10_falsy_delta_skips 1 initialState 500 700 (Or.inl rfl)

theorem flushEffects_breatheCount (s : AppState) :
    (flushEffects s).breatheCount = s.breatheCount := by
  simp only [flushEffects]
  split <;> rfl

theorem clickPlayPause_ne_completed (m : Mode) : clickPlayPause m ≠ Mode.completed := by
  cases m <;> simp [clickPlayPause]

theorem inFlips_append (a b : List Event) :
    inFlips (a ++ b) = inFlips a + inFlips b := by
  simp [inFlips, List.count_append]

theorem inFlips_setPhase (N : Nat) (s : AppState) (ph : Phase) :
    inFlips (setPhase N s ph).2 = if ph = Phase.In then 1 else 0 := by
  rw [setPhase_snd]
  by_cases har : s.audioReady <;> cases ph <;> simp [har] <;> decide

/-- Invariant tying the engine state to the number of entries into phase `in`
recorded so far in the event trace of a single session. -/
def SessionInv (N : Nat) (s : AppState) (k : Nat) : Prop :=
  (s.mode ≠ Mode.completed → s.breatheCount = k ∧ k < N) ∧
  (s.mode = Mode.completed → s.breatheCount = 0 ∧ k = N ∧ s.previous = none)

theorem sessionInv_step (N : Nat) (s : AppState) (k : Nat) (i : Input)
    (h : SessionInv N s k)
    (hclick : i = Input.clickPlayPause → s.mode ≠ Mode.completed) :
    SessionInv N (stepState N s i) (k + inFlips (applyInput N s i).2) := by
  obtain ⟨hnc, hc⟩ := h
  cases i with
  | clickPlayPause =>
      have hmode := hclick rfl
      obtain ⟨hcnt, hkN⟩ := hnc hmode
      rw [stepState, applyInput_click]
      refine ⟨fun _ => ?_, fun hmode2 => ?_⟩
      · refine ⟨?_, by simpa [inFlips] using hkN⟩
        rw [flushEffects_breatheCount]
        simpa [inFlips] using hcnt
      · rw [flushEffects_mode] at hmode2
        exact absurd hmode2 (clickPlayPause_ne_completed s.mode)
  | increment ph δ =>
      rw [stepState, applyInput_increment]
      by_cases hmode : s.mode = Mode.completed
      · obtain ⟨hcnt, hkN, _⟩ := hc hmode
        refine ⟨fun hmode2 => ?_, fun _ => ?_⟩
        · rw [flushEffects_mode] at hmode2
          exact absurd hmode hmode2
        · refine ⟨?_, by simpa [inFlips] using hkN, ?_⟩
          · rw [flushEffects_breatheCount]
            exact hcnt
          · rw [flushEffects_completed { s with config := setConfigDelta s.config ph δ } hmode]
      · obtain ⟨hcnt, hkN⟩ := hnc hmode
        refine ⟨fun _ => ?_, fun hmode2 => ?_⟩
        · refine ⟨?_, by simpa [inFlips] using hkN⟩
          rw [flushEffects_breatheCount]
          simpa [inFlips] using hcnt
        · rw [flushEffects_mode] at hmode2
          exact absurd hmode2 hmode
  | tick t =>
      by_cases hm : s.mode = Mode.playing
      · have hmode : s.mode ≠ Mode.completed := by rw [hm]; simp
        obtain ⟨hcnt, hkN⟩ := hnc hmode
        rw [stepState, applyInput_tick_playing N s t hm]
        rcases hprev : s.previous with _ | p
        · rw [animate_noBaseline N s t hprev]
          refine ⟨fun _ => ⟨?_, by simpa [inFlips] using hkN⟩, fun hmode2 => ?_⟩
          · rw [flushEffects_breatheCount]
            simpa [inFlips] using hcnt
          · rw [flushEffects_mode] at hmode2
            exact absurd hmode2 (by simpa using hmode)
        · by_cases hp : p = 0
          · subst hp
            rw [animate_zeroBaseline N s t hprev]
            refine ⟨fun _ => ⟨?_, by simpa [inFlips] using hkN⟩, fun hmode2 => ?_⟩
            · rw [flushEffects_breatheCount]
              simpa [inFlips] using hcnt
            · rw [flushEffects_mode] at hmode2
              exact absurd hmode2 (by simpa using hmode)
          · rcases hph : s.phase with _ | _
            · by_cases hb : 1 ≤ integrateValue s p t
              · rw [animate_In_flip N s t p hprev hp hph hb, setPhase_Out]
                refine ⟨fun _ => ⟨?_, ?_⟩, fun hmode2 => ?_⟩
                · rw [flushEffects_breatheCount]
                  by_cases har : s.audioReady <;>
                    simpa [inFlips, har] using hcnt
                · by_cases har : s.audioReady <;>
                    simpa [inFlips, har] using hkN
                · rw [flushEffects_mode] at hmode2
                  exact absurd hmode2 (by simpa using hmode)
              · rw [animate_In_noflip N s t p hprev hp hph hb]
                refine ⟨fun _ => ⟨?_, by simpa [inFlips] using hkN⟩, fun hmode2 => ?_⟩
                · rw [flushEffects_breatheCount]
                  simpa [inFlips] using hcnt
                · rw [flushEffects_mode] at hmode2
                  exact absurd hmode2 (by simpa using hmode)
            · by_cases hb : integrateValue s p t ≤ 0
              · by_cases hN : s.breatheCount + 1 = N
                · have hsN : ({ s with value := integrateValue s p t } :
                      AppState).breatheCount + 1 = N := hN
                  rw [animate_Out_flip N s t p hprev hp hph hb,
                    setPhase_In_complete N { s with value := integrateValue s p t } hsN]
                  refine ⟨fun hmode2 => ?_, fun _ => ⟨?_, ?_, ?_⟩⟩
                  · rw [flushEffects_mode] at hmode2
                    exact absurd rfl hmode2
                  · rw [flushEffects_breatheCount]
                  · by_cases har : s.audioReady <;>
                      simp [inFlips, har] <;> omega
                  · rw [flushEffects_completed _ rfl]
                · have hsN : ¬({ s with value := integrateValue s p t } :
                      AppState).breatheCount + 1 = N := hN
                  rw [animate_Out_flip N s t p hprev hp hph hb,
                    setPhase_In_continue N { s with value := integrateValue s p t } hsN]
                  refine ⟨fun _ => ⟨?_, ?_⟩, fun hmode2 => ?_⟩
                  · rw [flushEffects_breatheCount]
                    by_cases har : s.audioReady <;> simp [inFlips, har] <;> omega
                  · by_cases har : s.audioReady <;> simp [inFlips, har] <;> omega
                  · rw [flushEffects_mode] at hmode2
                    exact absurd hmode2 (by simpa using hmode)
              · rw [animate_Out_noflip N s t p hprev hp hph hb]
                refine ⟨fun _ => ⟨?_, by simpa [inFlips] using hkN⟩, fun hmode2 => ?_⟩
                · rw [flushEffects_breatheCount]
                  simpa [inFlips] using hcnt
                · rw [flushEffects_mode] at hmode2
                  exact absurd hmode2 (by simpa using hmode)
      · rw [stepState, applyInput_tick_stopped N s t hm]
        simpa [inFlips] using And.intro hnc hc

theorem sessionInv_run (N : Nat) (l : List Input) : ∀ (s : AppState) (k : Nat),
    SessionInv N s k → noCompletedClick N s l = true →
    SessionInv N (runState N s l) (k + inFlips (runEvents N s l)) := by
  induction l with
  | nil =>
      intro s k h _
      simpa [runState, runEvents, inFlips] using h
  | cons i is ih =>
      intro s k h hnc
      rw [noCompletedClick, Bool.and_eq_true] at hnc
      have hclick : i = Input.clickPlayPause → s.mode ≠ Mode.completed := by
        intro he
        subst he
        simpa [clickOk] using hnc.1
      have hstep := sessionInv_step N s k i h hclick
      have hrec := ih (stepState N s i) (k + inFlips (applyInput N s i).2) hstep hnc.2
      rw [runState_cons, runEvents_cons, inFlips_append, ← Nat.add_assoc]
      exact hrec

theorem stepTick_shift (N : Nat) (g t : ℚ) (s1 s2 : AppState)
    (hobs : s1.obs = s2.obs) (har : s1.audioReady = s2.audioReady)
    (hprev : PrevRel g s1.previous s2.previous)
    (ht : t ≠ 0) (htg : t - g ≠ 0) :
    (stepState N s1 (Input.tick t)).obs = (stepState N s2 (Input.tick (t - g))).obs ∧
    (stepState N s1 (Input.tick t)).audioReady =
      (stepState N s2 (Input.tick (t - g))).audioReady ∧
    PrevRel g (stepState N s1 (Input.tick t)).previous
      (stepState N s2 (Input.tick (t - g))).previous := by
  rcases s1 with ⟨c1, v1, m1, n1, ph1, prev1, ar1⟩
  rcases s2 with ⟨c2, v2, m2, n2, ph2, prev2, ar2⟩
  obtain ⟨rfl, rfl, rfl, rfl, rfl⟩ :
      c1 = c2 ∧ v1 = v2 ∧ m1 = m2 ∧ n1 = n2 ∧ ph1 = ph2 := by
    simpa [AppState.obs, Obs.mk.injEq] using hobs
  replace har : ar1 = ar2 := har
  subst har
  by_cases hm : m1 = Mode.playing
  · subst hm
    rcases hprev with ⟨hp1, hp2⟩ | ⟨p, hpne, hpgne, hp1, hp2⟩
    · rw [stepState, stepState, applyInput_tick_playing N _ t rfl,
        applyInput_tick_playing N _ (t - g) rfl,
        animate_noBaseline N _ t hp1, animate_noBaseline N _ (t - g) hp2,
        flushEffects_playing _ rfl, flushEffects_playing _ rfl]
      exact ⟨rfl, rfl, Or.inr ⟨t, ht, htg, rfl, rfl⟩⟩
    · replace hp1 : prev1 = some p := hp1
      replace hp2 : prev2 = some (p - g) := hp2
      subst hp1
      subst hp2
      have hiv : integrateValue ⟨c1, v1, Mode.playing, n1, ph1, some p, ar1⟩ p t =
          integrateValue ⟨c1, v1, Mode.playing, n1, ph1, some (p - g), ar1⟩ (p - g)
            (t - g) := by
        simp only [integrateValue]
        rw [show t - g - (p - g) = t - p by ring]
      rw [stepState, stepState, applyInput_tick_playing N _ t rfl,
        applyInput_tick_playing N _ (t - g) rfl]
      rcases ph1 with _ | _
      · by_cases hb : 1 ≤ integrateValue ⟨c1, v1, Mode.playing, n1, Phase.In, some p, ar1⟩ p t
        · rw [animate_In_flip N _ t p rfl hpne rfl hb,
            animate_In_flip N _ (t - g) (p - g) rfl hpgne rfl (hiv ▸ hb),
            setPhase_Out, setPhase_Out, flushEffects_playing _ rfl,
            flushEffects_playing _ rfl]
          exact ⟨by simp [AppState.obs, hiv], rfl, Or.inr ⟨t, ht, htg, rfl, rfl⟩⟩
        · rw [animate_In_noflip N _ t p rfl hpne rfl hb,
            animate_In_noflip N _ (t - g) (p - g) rfl hpgne rfl (hiv ▸ hb),
            flushEffects_playing _ rfl, flushEffects_playing _ rfl]
          exact ⟨by simp [AppState.obs, hiv], rfl, Or.inr ⟨t, ht, htg, rfl, rfl⟩⟩
      · by_cases hb : integrateValue ⟨c1, v1, Mode.playing, n1, Phase.Out, some p, ar1⟩ p t ≤ 0
        · by_cases hN : n1 + 1 = N
          · rw [animate_Out_flip N _ t p rfl hpne rfl hb,
              animate_Out_flip N _ (t - g) (p - g) rfl hpgne rfl (hiv ▸ hb),
              setPhase_In_complete N _ hN, setPhase_In_complete N _ hN,
              flushEffects_completed _ rfl, flushEffects_completed _ rfl]
            exact ⟨by simp [AppState.obs, hiv], rfl, Or.inl ⟨rfl, rfl⟩⟩
          · rw [animate_Out_flip N _ t p rfl hpne rfl hb,
              animate_Out_flip N _ (t - g) (p - g) rfl hpgne rfl (hiv ▸ hb),
              setPhase_In_continue N _ hN, setPhase_In_continue N _ hN,
              flushEffects_playing _ rfl, flushEffects_playing _ rfl]
            exact ⟨by simp [AppState.obs, hiv], rfl, Or.inr ⟨t, ht, htg, rfl, rfl⟩⟩
        · rw [animate_Out_noflip N _ t p rfl hpne rfl hb,
            animate_Out_noflip N _ (t - g) (p - g) rfl hpgne rfl (hiv ▸ hb),
            flushEffects_playing _ rfl, flushEffects_playing _ rfl]
          exact ⟨by simp [AppState.obs, hiv], rfl, Or.inr ⟨t, ht, htg, rfl, rfl⟩⟩
  · rw [stepState, stepState, applyInput_tick_stopped N _ t hm,
      applyInput_tick_stopped N _ (t - g) hm]
    exact ⟨rfl, rfl, hprev⟩

theorem trajStates_shift (N : Nat) (g : ℚ) (ts : List ℚ) :
    ∀ s1 s2 : AppState, s1.obs = s2.obs → s1.audioReady = s2.audioReady →
    PrevRel g s1.previous s2.previous →
    (∀ t ∈ ts, t ≠ 0 ∧ t - g ≠ 0) →
    (trajStates N s1 ts).map AppState.obs =
      (trajStates N s2 (ts.map (fun x => x - g))).map AppState.obs := by
  induction ts with
  | nil =>
      intro s1 s2 _ _ _ _
      rfl
  | cons t ts ih =>
      intro s1 s2 hobs har hprev hts
      obtain ⟨h1, h2, h3⟩ := stepTick_shift N g t s1 s2 hobs har hprev
        (hts t (List.mem_cons_self t ts)).1 (hts t (List.mem_cons_self t ts)).2
      have htail := ih (stepState N s1 (Input.tick t))
        (stepState N s2 (Input.tick (t - g))) h1 h2 h3
        (fun u hu => hts u (List.mem_cons_of_mem t hu))
      simp only [List.map_cons, trajStates]
      rw [h1, htail]

theorem step_click_playing (N : Nat) (s : AppState) (hm : s.mode = Mode.playing) :
    stepState N s Input.clickPlayPause =
      { s with mode := Mode.paused, audioReady := true, previous := none } := by
  rw [stepState, applyInput_click]
  have h1 : clickPlayPause s.mode = Mode.paused := by
    rw [hm]
    rfl
  rw [h1]
  exact flushEffects_paused { s with mode := Mode.paused } rfl

theorem step_click_paused (N : Nat) (s : AppState) (hm : s.mode = Mode.paused) :
    stepState N s Input.clickPlayPause =
      { s with mode := Mode.playing, audioReady := true } := by
  rw [stepState, applyInput_click]
  have h1 : clickPlayPause s.mode = Mode.playing := by
    rw [hm]
    rfl
  rw [h1]
  exact flushEffects_playing { s with mode := Mode.playing } rfl

/-- C4: pause/resume introduces no drift.  Pausing from `playing` stops the
loop and clears the stored baseline; resuming returns to `playing` with the
baseline still cleared; the first tick after resuming only re-establishes the
baseline (no integration, no events); and the observable trajectory
(progress, phase, mode, counter, config) of any post-resume tick sequence is
unchanged when the paused wall-clock gap `g` is removed from every timestamp. -/
theorem C4_pause_resume_no_drift (N : Nat) (s : AppState) (g : ℚ) (ts : List ℚ)
    (hm : s.mode = Mode.playing) (hts : ∀ t ∈ ts, t ≠ 0 ∧ t - g ≠ 0) :
    (stepState N s Input.clickPlayPause).mode = Mode.paused ∧
    (stepState N s Input.clickPlayPause).previous = none ∧
    (stepState N (stepState N s Input.clickPlayPause) Input.clickPlayPause).mode =
      Mode.playing ∧
    (stepState N (stepState N s Input.clickPlayPause) Input.clickPlayPause).previous =
      none ∧
    (∀ u : ℚ,
      applyInput N (stepState N (stepState N s Input.clickPlayPause) Input.clickPlayPause)
          (Input.tick u) =
        ({ stepState N (stepState N s Input.clickPlayPause) Input.clickPlayPause with
            previous := some u }, [])) ∧
    (trajStates N (stepState N (stepState N s Input.clickPlayPause) Input.clickPlayPause)
        ts).map AppState.obs =
      (trajStates N (stepState N (stepState N s Input.clickPlayPause) Input.clickPlayPause)
        (ts.map (fun x => x - g))).map AppState.obs := by
  have hP := step_click_playing N s hm
  have hR2 : stepState N (stepState N s Input.clickPlayPause) Input.clickPlayPause =
      { s with mode := Mode.playing, audioReady := true, previous := none } := by
    rw [step_click_paused N (stepState N s Input.clickPlayPause) (by rw [hP]), hP]
  refine ⟨by rw [hP], by rw [hP], by rw [hR2], by rw [hR2], fun u => ?_, ?_⟩
  · rw [hR2, applyInput_tick_playing N _ u rfl, animate_noBaseline N _ u rfl,
      flushEffects_playing _ rfl]
  · refine trajStates_shift N g ts _ _ rfl rfl ?_ hts
    rw [hR2]
    exact Or.inl ⟨rfl, rfl⟩

theorem C4_pause_resume_no_drift_witness :
    (stepState 1 demoPlaying Input.clickPlayPause).mode = Mode.paused ∧
    (stepState 1 demoPlaying Input.clickPlayPause).previous = none ∧
    (stepState 1 (stepState 1 demoPlaying Input.clickPlayPause)
        Input.clickPlayPause).mode = Mode.playing ∧
    (stepState 1 (stepState 1 demoPlaying Input.clickPlayPause)
        Input.clickPlayPause).previous = none ∧
    (∀ u : ℚ,
      applyInput 1 (stepState 1 (stepState 1 demoPlaying Input.clickPlayPause)
            Input.clickPlayPause) (Input.tick u) =
        ({ stepState 1 (stepState 1 demoPlaying Input.clickPlayPause)
            Input.clickPlayPause with previous := some u }, [])) ∧
    (trajStates 1 (stepState 1 (stepState 1 demoPlaying Input.clickPlayPause)
        Input.clickPlayPause) [50000, 50500]).map AppState.obs =
      (trajStates 1 (stepState 1 (stepState 1 demoPlaying Input.clickPlayPause)
        Input.clickPlayPause)
        ([50000, 50500].map (fun x => x - 10000))).map AppState.obs :=
  C4_pause_resume_no_drift 1 demoPlaying 10000 [50000, 50500] (by decide) (by decide)

/-- C5: within one session (the input sequence never clicks play/pause while
the mode is `completed`) with session target `N ≥ 1`, after any input prefix
the breath counter equals the number of entries into phase `in` recorded so
far while the mode is not `completed` (and fewer than `N` entries have
occurred); the mode is `completed` exactly when the `N`-th entry into phase
`in` has occurred, and immediately after it the counter is reset to 0 and the
frame loop is stopped (the baseline is cleared and further ticks are
ignored). -/
theorem C5_completed_on_Nth_in_entry (N : Nat) (l : List Input) (hN : 1 ≤ N)
    (hnc : noCompletedClick N initialState l = true) :
    ((runState N initialState l).mode ≠ Mode.completed →
      (runState N initialState l).breatheCount =
          inFlips (runEvents N initialState l) ∧
        inFlips (runEvents N initialState l) < N) ∧
    ((runState N initialState l).mode = Mode.completed →
      (runState N initialState l).breatheCount = 0 ∧
        inFlips (runEvents N initialState l) = N ∧
        (runState N initialState l).previous = none ∧
        ∀ t : ℚ, applyInput N (runState N initialState l) (Input.tick t) =
          (runState N initialState l, [])) := by
  have h0 : SessionInv N initialState 0 :=
    ⟨fun _ => ⟨rfl, hN⟩, fun hmode => by simp [initialState] at hmode⟩
  have hrun := sessionInv_run N l initialState 0 h0 hnc
  rw [Nat.zero_add] at hrun
  refine ⟨hrun.1, fun hc => ?_⟩
  obtain ⟨h1, h2, h3⟩ := hrun.2 hc
  refine ⟨h1, h2, h3, fun t => applyInput_tick_stopped N _ t ?_⟩
  rw [hc]
  simp

theorem C5_completed_on_Nth_in_entry_witness :
    ((runState 1 initialState [Input.clickPlayPause, Input.tick 1000,
        Input.tick 8000, Input.tick 32000]).mode ≠ Mode.completed →
      (runState 1 initialState [Input.clickPlayPause, Input.tick 1000,
          Input.tick 8000, Input.tick 32000]).breatheCount =
          inFlips (runEvents 1 initialState [Input.clickPlayPause, Input.tick 1000,
            Input.tick 8000, Input.tick 32000]) ∧
        inFlips (runEvents 1 initialState [Input.clickPlayPause, Input.tick 1000,
          Input.tick 8000, Input.tick 32000]) < 1) ∧
    ((runState 1 initialState [Input.clickPlayPause, Input.tick 1000,
        Input.tick 8000, Input.tick 32000]).mode = Mode.completed →
      (runState 1 initialState [Input.clickPlayPause, Input.tick 1000,
          Input.tick 8000, Input.tick 32000]).breatheCount = 0 ∧
        inFlips (runEvents 1 initialState [Input.clickPlayPause, Input.tick 1000,
          Input.tick 8000, Input.tick 32000]) = 1 ∧
        (runState 1 initialState [Input.clickPlayPause, Input.tick 1000,
          Input.tick 8000, Input.tick 32000]).previous = none ∧
        ∀ t : ℚ, applyInput 1 (runState 1 initialState [Input.clickPlayPause,
            Input.tick 1000, Input.tick 8000, Input.tick 32000]) (Input.tick t) =
          (runState 1 initialState [Input.clickPlayPause, Input.tick 1000,
            Input.tick 8000, Input.tick 32000], [])) :=
  C5_completed_on_Nth_in_entry 1
    [Input.clickPlayPause, Input.tick 1000, Input.tick 8000, Input.tick 32000]
    (by decide) (by decide)

end InOut
